import Mathlib

/-!
Verification of the cpa-logger log-ingestion pipeline.

This file gives a shallow embedding, in Lean, of the pure core of the
repository:

* `internal/parser/parser.go` — the format classifier, the section
  splitter, the main-log / API-transaction / event-batch parsers and the
  stream reconstructor.  Go regular expressions are translated into
  hand-written character-level matchers (each is documented with the
  regex it implements); Go standard-library helpers (`strings.TrimSpace`,
  `strings.Split`, `filepath.Base`, `strconv.Atoi`, `bufio.ScanLines`,
  `encoding/json`, `time.Parse`) are modelled by Lean functions with the
  same observable behaviour on the inputs the claims range over.
* `internal/collector/collector.go` (`processFile`, `tryDeleteFile`) —
  the per-file pipeline, modelled as a pure state-passing function over
  an explicit file system, storage state and a success oracle for the
  storage sink calls.
* `internal/config/config.go` and the file-state contract of
  `internal/storage/clickhouse.go` (`IsFileProcessed`,
  `MarkFileProcessed`).

Go `time.Time` values are represented as `Option String`: `some s` is
the result of successfully parsing the text `s` with the layout in
question, `none` is the zero time (Go's parsers leave the zero value on
failure and the repository ignores every time-parse error).

Go maps (`map[string]string`, the section map) are represented as
association lists.  Where Go iterates a map (`ParseAPILog`'s section
loop) the iteration order is unspecified in Go; we fix the order in
which each name first appears in the file, keeping the body of the last
occurrence — the reading assumed by the specification's own
order-dependency language.
-/

namespace CpaLogger

/-! ## Character and string helpers (Go standard library semantics) -/

/-- Whitespace as recognised by Go's `unicode.IsSpace` on the code
points this repository's inputs contain: `\t \n \v \f \r` space, NEL
(U+0085) and NBSP (U+00A0). -/
def goIsSpace (c : Char) : Bool :=
  c = ' ' || c = '\t' || c = '\n' || c = (Char.ofNat 11) || c = (Char.ofNat 12) ||
  c = '\r' || c = (Char.ofNat 133) || c = (Char.ofNat 160)

/-- `strings.TrimSpace` on a character list. -/
def chTrim (cs : List Char) : List Char :=
  ((cs.dropWhile goIsSpace).reverse.dropWhile goIsSpace).reverse

/-- `strings.TrimSpace`. -/
def trimSpace (s : String) : String := String.mk (chTrim s.data)

/-- `strings.TrimRight s " \t\n..."` restricted to whitespace, used for
line-local matching of the section-header regex. -/
def chTrimRight (cs : List Char) : List Char :=
  (cs.reverse.dropWhile goIsSpace).reverse

/-- `strings.Split s (String.singleton sep)`: split on every occurrence
of a one-character separator; `"a,b,"` splits into `["a", "b", ""]`. -/
def chSplit (sep : Char) : List Char → List (List Char)
  | [] => [[]]
  | c :: cs =>
    let rest := chSplit sep cs
    if c = sep then [] :: rest
    else match rest with
      | [] => [[c]]
      | r :: rs => (c :: r) :: rs

/-- String-level `strings.Split` on a one-character separator. -/
def strSplit (s : String) (sep : Char) : List String :=
  (chSplit sep s.data).map String.mk

/-- `strings.HasPrefix s p` / `strings.HasSuffix`. -/
def strStartsWith (s p : String) : Bool := p.data.isPrefixOf s.data

def strEndsWith (s p : String) : Bool := p.data.reverse.isPrefixOf s.data.reverse

/-- `strings.TrimPrefix s p`: drop `p` when it is a prefix, else return
`s` unchanged. -/
def strTrimPrefix (s p : String) : String :=
  if strStartsWith s p then String.mk (s.data.drop p.data.length) else s

/-- `strings.Index s ":"`-style search: index of the first occurrence of
a character, or `none`. -/
def chIndexOf (c : Char) : List Char → Option Nat
  | [] => none
  | x :: xs => if x = c then some 0 else (chIndexOf c xs).map (· + 1)

/-- Concatenate a list of strings with `"\n"` between them
(`strings.Join lines "\n"`). -/
def joinLines : List String → String
  | [] => ""
  | [l] => l
  | l :: ls => l ++ "\n" ++ joinLines ls

def isDigitCh (c : Char) : Bool := '0' ≤ c && c ≤ '9'

/-- The regexp class `\w` = `[0-9A-Za-z_]`, tested on code points. -/
def isWordCh (c : Char) : Bool :=
  let n := c.toNat
  (97 ≤ n && n ≤ 122) || (65 ≤ n && n ≤ 90) || isDigitCh c || n = 95

def isHexLower (c : Char) : Bool := isDigitCh c || ('a' ≤ c && c ≤ 'f')

/-- Numeric value of a digit run (the digits-only core of
`strconv.Atoi`; the repository only applies it to digit runs produced by
regex groups, and ignores the error return everywhere). -/
def digitsToNat (cs : List Char) : Nat :=
  cs.foldl (fun a c => a * 10 + (c.toNat - '0'.toNat)) 0

/-- `strconv.Atoi`, error ignored: optional sign followed by one or more
digits parses to the value, anything else yields the zero value the
callers keep. -/
def goAtoi (s : String) : Int :=
  match s.data with
  | [] => 0
  | '-' :: cs => if cs ≠ [] && cs.all isDigitCh then -(digitsToNat cs : Int) else 0
  | '+' :: cs => if cs ≠ [] && cs.all isDigitCh then (digitsToNat cs : Int) else 0
  | cs => if cs.all isDigitCh then (digitsToNat cs : Int) else 0

/-- `path/filepath.Base` (unix separator): empty path gives `"."`;
trailing slashes are stripped; the part after the last `/` is returned;
all-slash paths give `"/"`. -/
def filepathBase (p : String) : String :=
  if p = "" then "."
  else
    let s := (p.data.reverse.dropWhile (· = '/')).reverse
    let t := (s.reverse.takeWhile (· ≠ '/')).reverse
    if t = [] then "/" else String.mk t

/-! ## Fixed-shape regex matching

The file-name and timestamp regexes in `parser.go` are all
fixed-shape: a sequence of literal characters and digit positions.  We
match them with a small shape language. -/

inductive ShapeItem where
  | lit (c : Char)
  | digit
  | hexl
deriving DecidableEq

def matchShape : List ShapeItem → List Char → Bool
  | [], [] => true
  | [], _ :: _ => false
  | _ :: _, [] => false
  | .lit c :: sh, x :: xs => x = c && matchShape sh xs
  | .digit :: sh, x :: xs => isDigitCh x && matchShape sh xs
  | .hexl :: sh, x :: xs => isHexLower x && matchShape sh xs

def shLit (s : String) : List ShapeItem := s.data.map ShapeItem.lit

def shDigits (n : Nat) : List ShapeItem := List.replicate n ShapeItem.digit

/-- Shape of `main-\d{4}-\d{2}-\d{2}T\d{2}-\d{2}-\d{2}\.\d{3}\.log`
(the anchored regex `mainLogFilePattern` of parser.go). -/
def mainLogFileShape : List ShapeItem :=
  shLit "main-" ++ shDigits 4 ++ shLit "-" ++ shDigits 2 ++ shLit "-" ++ shDigits 2 ++
  shLit "T" ++ shDigits 2 ++ shLit "-" ++ shDigits 2 ++ shLit "-" ++ shDigits 2 ++
  shLit "." ++ shDigits 3 ++ shLit ".log"

/-- `mainLogFilePattern.MatchString base` (the regex is `^…$`-anchored,
so it is a whole-string shape match). -/
def mainLogFileMatch (base : String) : Bool := matchShape mainLogFileShape base.data

/-! ## Format classifier (`DetermineLogType`, parser.go lines 93-117) -/

inductive LogType where
  | main
  | v1_messages
  | v1_count_tokens
  | provider_messages
  | provider_count_tokens
  | provider_responses
  | event_batch
deriving DecidableEq

/-- `string(logType)`: the string value of each `LogType` constant. -/
def logTypeStr : LogType → String
  | .main => "main"
  | .v1_messages => "v1_messages"
  | .v1_count_tokens => "v1_count_tokens"
  | .provider_messages => "provider_messages"
  | .provider_count_tokens => "provider_count_tokens"
  | .provider_responses => "provider_responses"
  | .event_batch => "event_batch"

/-- `DetermineLogType`: classify by base file name; the main-log pattern
or the literal `main.log` first, then prefix rules in source order, then
the `main` default. -/
def DetermineLogType (filename : String) : LogType :=
  let base := filepathBase filename
  if mainLogFileMatch base || base = "main.log" then .main
  else if strStartsWith base "api-provider-agy-api-event_logging-batch" then .event_batch
  else if strStartsWith base "api-provider-agy-v1-messages-count_tokens" then .provider_count_tokens
  else if strStartsWith base "api-provider-agy-responses" then .provider_responses
  else if strStartsWith base "api-provider-agy" then .provider_messages
  else if strStartsWith base "v1-messages-count_tokens" then .v1_count_tokens
  else if strStartsWith base "v1-messages" then .v1_messages
  else .main

/-- Shape of the fixed-length suffix of `apiLogFilePattern`
(`-(\d{4}-\d{2}-\d{2}T\d{6})-([a-f0-9]{8})\.log$`), 31 characters. -/
def apiLogSuffixShape : List ShapeItem :=
  shLit "-" ++ shDigits 4 ++ shLit "-" ++ shDigits 2 ++ shLit "-" ++ shDigits 2 ++
  shLit "T" ++ shDigits 6 ++ shLit "-" ++ List.replicate 8 ShapeItem.hexl ++ shLit ".log"

/-- `ExtractRequestIDFromFilename`: submatch 3 of
`^(.+)-(\d{4}-\d{2}-\d{2}T\d{6})-([a-f0-9]{8})\.log$` on the base name,
`""` when the pattern does not match.  The suffix after the greedy
`(.+)` group has fixed length 31, so the split point is forced; `.`
does not match a newline. -/
def ExtractRequestIDFromFilename (filename : String) : String :=
  let base := (filepathBase filename).data
  let n := base.length
  if n < 32 then ""
  else
    let front := base.take (n - 31)
    let suffix := base.drop (n - 31)
    if front ≠ [] && front.all (· ≠ '\n') && matchShape apiLogSuffixShape suffix then
      String.mk ((suffix.drop 19).take 8)
    else ""

/-! ### Specification-side classifier (for claim C5)

Written from the spec's words (§4.1): an ordered rule list, first match
wins, with `main` as the default. -/

def firstMatchRule : List ((String → Bool) × LogType) → String → LogType
  | [], _ => .main
  | (p, k) :: rs, b => if p b then k else firstMatchRule rs b

/-- The spec's rule list, §4.1 / claim C5 order: main-pattern-or-literal,
event_batch, provider_count_tokens, provider_responses,
provider_messages, v1_count_tokens, v1_messages. -/
def classifyRules : List ((String → Bool) × LogType) :=
  [ (fun b => mainLogFileMatch b || b = "main.log", .main)
  , (fun b => strStartsWith b "api-provider-agy-api-event_logging-batch", .event_batch)
  , (fun b => strStartsWith b "api-provider-agy-v1-messages-count_tokens", .provider_count_tokens)
  , (fun b => strStartsWith b "api-provider-agy-responses", .provider_responses)
  , (fun b => strStartsWith b "api-provider-agy", .provider_messages)
  , (fun b => strStartsWith b "v1-messages-count_tokens", .v1_count_tokens)
  , (fun b => strStartsWith b "v1-messages", .v1_messages) ]

/-- `classify` as the spec states it: evaluate the rules in order on the
base name; names matching none become `main`. -/
def classifySpec (filename : String) : LogType :=
  firstMatchRule classifyRules (filepathBase filename)

/-! ## Lemmas on `filepathBase` -/

lemma dropWhile_of_none {p : Char → Bool} :
    ∀ l : List Char, (∀ c ∈ l, p c = false) → List.dropWhile p l = l := by
  intro l h
  cases l with
  | nil => rfl
  | cons c cs =>
    rw [List.dropWhile_cons, h c (List.mem_cons_self c cs)]
    simp

lemma mem_of_mem_takeWhile {p : Char → Bool} :
    ∀ l c, c ∈ List.takeWhile p l → c ∈ l ∧ p c = true := by
  intro l
  induction l with
  | nil => intro c h; simp [List.takeWhile] at h
  | cons x xs ih =>
    intro c h
    rw [List.takeWhile_cons] at h
    by_cases hx : p x
    · rw [if_pos hx] at h
      rcases List.mem_cons.mp h with h1 | h2
      · exact ⟨by simp [h1], h1 ▸ hx⟩
      · rcases ih c h2 with ⟨hm, hp⟩
        exact ⟨List.mem_cons_of_mem _ hm, hp⟩
    · rw [if_neg hx] at h
      simp at h

/-- On a nonempty, slash-free string `filepathBase` is the identity. -/
lemma filepathBase_no_slash (s : String) (h1 : s.data ≠ [])
    (h2 : ∀ c ∈ s.data, ¬ c = '/') : filepathBase s = s := by
  have hs : ¬ s = "" := by
    intro e
    apply h1
    rw [e]
  unfold filepathBase
  rw [if_neg hs]
  have hdrop : s.data.reverse.dropWhile (fun c => decide (c = '/')) = s.data.reverse := by
    apply dropWhile_of_none
    intro c hc
    rw [List.mem_reverse] at hc
    simpa using h2 c hc
  simp only [hdrop, List.reverse_reverse]
  have htake : s.data.reverse.takeWhile (fun c => decide (c ≠ '/')) = s.data.reverse := by
    have : ∀ c ∈ s.data.reverse, (fun c => decide (c ≠ '/')) c = true := by
      intro c hc
      rw [List.mem_reverse] at hc
      simpa using h2 c hc
    rw [List.takeWhile_eq_self_iff.mpr this]
  simp only [htake, List.reverse_reverse]
  have hne : ¬ s.data = [] := h1
  rw [if_neg hne]

/-- `filepathBase` returns `"."`, `"/"`, or a nonempty slash-free
string. -/
lemma filepathBase_cases (p : String) :
    filepathBase p = "." ∨ filepathBase p = "/" ∨
    ((filepathBase p).data ≠ [] ∧ ∀ c ∈ (filepathBase p).data, ¬ c = '/') := by
  unfold filepathBase
  by_cases hp : p = ""
  · rw [if_pos hp]; left; rfl
  · rw [if_neg hp]
    set s := (p.data.reverse.dropWhile (fun c => decide (c = '/'))).reverse with hs
    by_cases ht : (s.reverse.takeWhile (fun c => decide (c ≠ '/'))).reverse = []
    · rw [if_pos ht]; right; left; rfl
    · rw [if_neg ht]
      right; right
      constructor
      · exact ht
      · intro c hc
        rw [List.mem_reverse] at hc
        have := (mem_of_mem_takeWhile _ _ hc).2
        simpa using this

lemma filepathBase_idem (p : String) : filepathBase (filepathBase p) = filepathBase p := by
  rcases filepathBase_cases p with h | h | ⟨h1, h2⟩
  · rw [h]; decide
  · rw [h]; decide
  · exact filepathBase_no_slash _ h1 h2

/-- C5: `DetermineLogType` is total and agrees everywhere with the
spec's ordered first-match-wins rule list (main pattern or literal name,
then event_batch, provider_count_tokens, provider_responses,
provider_messages, v1_count_tokens, v1_messages, default `main`). -/
theorem determineLogType_eq_classifySpec (f : String) :
    DetermineLogType f = classifySpec f := by
  rfl

/-- C10: classification and correlation-id extraction depend only on
the base file name — prefixing directory components never changes the
result, because both functions begin by taking `filepath.Base` and
`filepath.Base` is idempotent. -/
theorem classification_depends_only_on_base (p : String) :
    DetermineLogType p = DetermineLogType (filepathBase p) ∧
    ExtractRequestIDFromFilename p = ExtractRequestIDFromFilename (filepathBase p) := by
  constructor
  · unfold DetermineLogType
    rw [filepathBase_idem]
  · unfold ExtractRequestIDFromFilename
    rw [filepathBase_idem]

/-! ## JSON (`encoding/json` on `map[string]interface{}` targets)

The repository decodes JSON with `encoding/json` in two places: the
stream reconstructor (each `data:` payload into `map[string]interface{}`)
and the event-batch parser (the request body into a struct holding
`events []map[string]interface{}`).  We model JSON values and a
recursive-descent parser for the JSON grammar (objects, arrays, strings
with escapes, numbers, booleans, null).  Numbers are kept as their raw
literal text — the repository never inspects a numeric value.  A lone
`\uXXXX` escape is decoded as that code point (`Char.ofNat`); surrogate
pairing is not modelled, and no claim depends on it. -/

inductive Json where
  | null
  | bool (b : Bool)
  | num (raw : String)
  | str (s : String)
  | arr (xs : List Json)
  | obj (kvs : List (String × Json))

def lbraceCh : Char := Char.ofNat 123

def rbraceCh : Char := Char.ofNat 125

/-- JSON insignificant whitespace: space, tab, newline, carriage return. -/
def jsonSkipWS : List Char → List Char
  | [] => []
  | c :: cs =>
    if c = ' ' || c = '\t' || c = '\n' || c = '\r' then jsonSkipWS cs else c :: cs

/-- Value of one hex digit of a `\uXXXX` escape (code-point ranges
48-57, 97-102, 65-70). -/
def parseHexDigit (c : Char) : Option Nat :=
  let n := c.toNat
  if 48 ≤ n && n ≤ 57 then some (n - 48)
  else if 97 ≤ n && n ≤ 102 then some (n - 87)
  else if 65 ≤ n && n ≤ 70 then some (n - 55)
  else none

def jsonEscChar (e : Char) : Option Char :=
  if e = '"' then some '"'
  else if e = '\\' then some '\\'
  else if e = '/' then some '/'
  else if e = 'b' then some (Char.ofNat 8)
  else if e = 'f' then some (Char.ofNat 12)
  else if e = 'n' then some '\n'
  else if e = 'r' then some '\r'
  else if e = 't' then some '\t'
  else none

/-- Body of a JSON string literal (after the opening quote): characters
up to the closing quote, escapes decoded, unescaped control characters
rejected. -/
def parseStrBody : Nat → List Char → Option (List Char × List Char)
  | 0, _ => none
  | _, [] => none
  | fuel + 1, c :: cs =>
    if c = '"' then some ([], cs)
    else if c = '\\' then
      match cs with
      | [] => none
      | e :: cs2 =>
        if e = 'u' then
          match cs2 with
          | h1 :: h2 :: h3 :: h4 :: cs3 =>
            match parseHexDigit h1, parseHexDigit h2, parseHexDigit h3, parseHexDigit h4 with
            | some a, some b, some c4, some d =>
              (parseStrBody fuel cs3).map
                (fun r => (Char.ofNat (a * 4096 + b * 256 + c4 * 16 + d) :: r.1, r.2))
            | _, _, _, _ => none
          | _ => none
        else
          match jsonEscChar e with
          | none => none
          | some ec => (parseStrBody fuel cs2).map (fun r => (ec :: r.1, r.2))
    else if c.toNat < 32 then none
    else (parseStrBody fuel cs).map (fun r => (c :: r.1, r.2))

def spanDigits (cs : List Char) : List Char × List Char :=
  (cs.takeWhile isDigitCh, cs.dropWhile isDigitCh)

/-- JSON number grammar after an optional leading minus:
`(0|[1-9][0-9]*)(\.[0-9]+)?([eE][+-]?[0-9]+)?`; returns the consumed raw
characters. -/
def parseNumCore (cs : List Char) : Option (List Char × List Char) :=
  match cs with
  | [] => none
  | c :: rest =>
    if ¬ isDigitCh c then none
    else
      let intPart :=
        if c = '0' then some ([c], rest)
        else some (c :: (spanDigits rest).1, (spanDigits rest).2)
      match intPart with
      | none => none
      | some (ip, rest1) =>
        let fracParsed :=
          match rest1 with
          | '.' :: r2 =>
            let sp := spanDigits r2
            if sp.1 = [] then none else some (ip ++ '.' :: sp.1, sp.2)
          | _ => some (ip, rest1)
        match fracParsed with
        | none => none
        | some (ipf, rest2) =>
          match rest2 with
          | e :: r3 =>
            if e = 'e' || e = 'E' then
              let signAnd :=
                match r3 with
                | s :: r4 => if s = '+' || s = '-' then ([s], r4) else ([], r3)
                | [] => ([], r3)
              let sp := spanDigits signAnd.2
              if sp.1 = [] then none
              else some (ipf ++ e :: signAnd.1 ++ sp.1, sp.2)
            else some (ipf, rest2)
          | [] => some (ipf, rest2)

mutual

/-- One JSON value (recursive descent; the fuel only bounds depth-first
recursion and `length + 2` always suffices, see `jsonParse`). -/
def parseVal : Nat → List Char → Option (Json × List Char)
  | 0, _ => none
  | fuel + 1, cs0 =>
    match jsonSkipWS cs0 with
    | [] => none
    | c :: rest =>
      if c = 'n' then
        if ['u', 'l', 'l'].isPrefixOf rest then some (.null, rest.drop 3) else none
      else if c = 't' then
        if ['r', 'u', 'e'].isPrefixOf rest then some (.bool true, rest.drop 3) else none
      else if c = 'f' then
        if ['a', 'l', 's', 'e'].isPrefixOf rest then some (.bool false, rest.drop 4) else none
      else if c = '"' then
        (parseStrBody (rest.length + 1) rest).map (fun r => (.str (String.mk r.1), r.2))
      else if c = '[' then
        match jsonSkipWS rest with
        | ']' :: r2 => some (.arr [], r2)
        | r1 => (parseElems fuel r1).map (fun r => (.arr r.1, r.2))
      else if c = lbraceCh then
        match jsonSkipWS rest with
        | r1 =>
          if r1.head? = some rbraceCh then some (.obj [], r1.drop 1)
          else (parseMembers fuel r1).map (fun r => (.obj r.1, r.2))
      else if c = '-' then
        (parseNumCore rest).map (fun r => (.num (String.mk ('-' :: r.1)), r.2))
      else
        (parseNumCore (c :: rest)).map (fun r => (.num (String.mk r.1), r.2))

/-- Comma-separated values up to `]`. -/
def parseElems : Nat → List Char → Option (List Json × List Char)
  | 0, _ => none
  | fuel + 1, cs =>
    match parseVal fuel cs with
    | none => none
    | some (v, rest) =>
      match jsonSkipWS rest with
      | ',' :: r2 => (parseElems fuel r2).map (fun r => (v :: r.1, r.2))
      | ']' :: r2 => some ([v], r2)
      | _ => none

/-- Comma-separated `"key": value` pairs up to the closing brace. -/
def parseMembers : Nat → List Char → Option (List (String × Json) × List Char)
  | 0, _ => none
  | fuel + 1, cs =>
    match jsonSkipWS cs with
    | '"' :: r1 =>
      match parseStrBody (r1.length + 1) r1 with
      | none => none
      | some (k, r2) =>
        match jsonSkipWS r2 with
        | ':' :: r3 =>
          match parseVal fuel r3 with
          | none => none
          | some (v, r4) =>
            match jsonSkipWS r4 with
            | ',' :: r5 => (parseMembers fuel r5).map (fun r => ((String.mk k, v) :: r.1, r.2))
            | c :: r5 =>
              if c = rbraceCh then some ([(String.mk k, v)], r5) else none
            | [] => none
        | _ => none
    | _ => none

end

/-- `json.Unmarshal` of a whole input: one value, then only trailing
whitespace. -/
def jsonParse (s : String) : Option Json :=
  match parseVal (s.data.length + 2) s.data with
  | some (v, rest) => if jsonSkipWS rest = [] then some v else none
  | none => none

/-- Go-map field access: `encoding/json` keeps the last of duplicate
keys, so lookup takes the last binding. -/
def objGet (kvs : List (String × Json)) (k : String) : Option Json :=
  (kvs.filter (fun kv => kv.1 = k)).getLast?.map (fun kv => kv.2)

/-- `json.Unmarshal(data, &m)` for `m : map[string]interface{}`:
succeeds on a JSON object (its bindings) and on `null` (leaving the nil
map, which behaves as empty for lookups); any other shape is a type
error. -/
def unmarshalMap (s : String) : Option (List (String × Json)) :=
  match jsonParse s with
  | some (.obj kvs) => some kvs
  | some .null => some []
  | _ => none

/-! ## Go time parsing (`time.Parse` / `time.ParseInLocation`)

`time.Time` is represented by `Option String`: `some s` for a
successful parse of the text `s`, `none` for the zero value that every
caller in the repository keeps on a parse error.  The validators check
the layout shape and the calendar/clock ranges Go enforces. -/

def isLeapYear (y : Nat) : Bool := (y % 4 = 0 && y % 100 ≠ 0) || y % 400 = 0

def daysInMonth (y m : Nat) : Nat :=
  if m = 2 then (if isLeapYear y then 29 else 28)
  else if m = 4 || m = 6 || m = 9 || m = 11 then 30
  else 31

def validDate (y mo d : Nat) : Bool :=
  1 ≤ mo && mo ≤ 12 && 1 ≤ d && d ≤ daysInMonth y mo

def validClock (h mi s : Nat) : Bool := h ≤ 23 && mi ≤ 59 && s ≤ 59

/-- Date-time digits of a 19-character `yyyy-mm-dd hh:mm:ss`-style
prefix (separator characters already checked by a shape). -/
def dateTimeRangesOk (cs : List Char) : Bool :=
  validDate (digitsToNat (cs.take 4)) (digitsToNat ((cs.drop 5).take 2))
      (digitsToNat ((cs.drop 8).take 2)) &&
  validClock (digitsToNat ((cs.drop 11).take 2)) (digitsToNat ((cs.drop 14).take 2))
      (digitsToNat ((cs.drop 17).take 2))

def localDateTimeShape : List ShapeItem :=
  shDigits 4 ++ shLit "-" ++ shDigits 2 ++ shLit "-" ++ shDigits 2 ++ shLit " " ++
  shDigits 2 ++ shLit ":" ++ shDigits 2 ++ shLit ":" ++ shDigits 2

def rfc3339HeadShape : List ShapeItem :=
  shDigits 4 ++ shLit "-" ++ shDigits 2 ++ shLit "-" ++ shDigits 2 ++ shLit "T" ++
  shDigits 2 ++ shLit ":" ++ shDigits 2 ++ shLit ":" ++ shDigits 2

/-- `time.ParseInLocation("2006-01-02 15:04:05", s, time.Local)`,
collapsed to validation (the parsed value is only carried, never
inspected, by the repository). -/
def goParseLocalDateTime (s : String) : Option String :=
  if matchShape localDateTimeShape s.data && dateTimeRangesOk s.data then some s else none

def rfc3339ZoneOk : List Char → Bool
  | ['Z'] => true
  | [sg, h1, h2, ':', m1, m2] =>
    (sg = '+' || sg = '-') && isDigitCh h1 && isDigitCh h2 && isDigitCh m1 && isDigitCh m2 &&
    digitsToNat [h1, h2] ≤ 23 && digitsToNat [m1, m2] ≤ 59
  | _ => false

def rfc3339FracZoneOk : List Char → Bool
  | '.' :: rest =>
    let sp := spanDigits rest
    sp.1 ≠ [] && rfc3339ZoneOk sp.2
  | rest => rfc3339ZoneOk rest

/-- `time.Parse(time.RFC3339Nano, s)`, collapsed to validation:
`yyyy-mm-ddThh:mm:ss`, an optional fraction, then `Z` or a `±hh:mm`
offset. -/
def goParseRFC3339Nano (s : String) : Option String :=
  let cs := s.data
  if matchShape rfc3339HeadShape (cs.take 19) && dateTimeRangesOk (cs.take 19) &&
      rfc3339FracZoneOk (cs.drop 19) then some s else none

/-! ## Main-log parser (`ParseMainLog` / `parseMainLogLine`,
parser.go lines 129-180) -/

structure MainLogEntry where
  Timestamp : Option String
  RequestID : String
  Level : String
  Source : String
  Message : String
  StatusCode : Int
  Latency : String
  ClientIP : String
  Method : String
  Path : String
deriving DecidableEq

/-- Whitespace of the Go regexp class `\s` = `[\t\n\f\r ]`. -/
def isGoReSpace (c : Char) : Bool :=
  c = '\t' || c = '\n' || c = (Char.ofNat 12) || c = '\r' || c = ' '

/-- `[^\]]+\]`: at least one non-`]` character up to the next `]`;
returns the run and the characters after the `]`. -/
def splitAtRB (cs : List Char) : Option (List Char × List Char) :=
  let pre := cs.takeWhile (· ≠ ']')
  match cs.dropWhile (· ≠ ']') with
  | ']' :: r => if pre = [] then none else some (pre, r)
  | _ => none

/-- `mainLogPattern`:
`^\[(\d{4}-\d{2}-\d{2} \d{2}:\d{2}:\d{2})\] \[([^\]]+)\] \[(\w+)\s*\] \[([^\]]+)\] (.*)$`.
The pattern is anchored and `.` does not match a newline, so the final
group must be newline-free; every quantifier here matches
deterministically. -/
def mainLogLineMatch (line : String) :
    Option (String × String × String × String × String) :=
  match line.data with
  | '[' :: cs1 =>
    let g1 := cs1.take 19
    if matchShape localDateTimeShape g1 then
      match cs1.drop 19 with
      | ']' :: ' ' :: '[' :: cs2 =>
        match splitAtRB cs2 with
        | some (g2, cs3) =>
          match cs3 with
          | ' ' :: '[' :: cs4 =>
            let g3 := cs4.takeWhile isWordCh
            if g3 = [] then none
            else
              match (cs4.dropWhile isWordCh).dropWhile isGoReSpace with
              | ']' :: ' ' :: '[' :: cs5 =>
                match splitAtRB cs5 with
                | some (g4, cs6) =>
                  match cs6 with
                  | ' ' :: g5 =>
                    if g5.all (· ≠ '\n') then
                      some (String.mk g1, String.mk g2, String.mk g3,
                            String.mk g4, String.mk g5)
                    else none
                  | _ => none
                | none => none
              | _ => none
          | _ => none
        | none => none
      | _ => none
    else none
  | _ => none

/-- Attempt of `httpLogPattern`
(`(\d{3}) \|\s*([^\|]+)\|\s*([^\|]+)\| (\w+)\s+"([^"]+)"`) at the start
of the input.  The only backtracking a leftmost-first engine performs
here is `\s*` giving one whitespace character back to `[^\|]+` when the
run up to the `|` would otherwise be empty. -/
def httpTryAt (cs : List Char) :
    Option (List Char × List Char × List Char × List Char × List Char) :=
  match cs with
  | d1 :: d2 :: d3 :: ' ' :: '|' :: rest =>
    if isDigitCh d1 && isDigitCh d2 && isDigitCh d3 then
      let step := fun (r : List Char) =>
        let ws := r.takeWhile isGoReSpace
        let after := r.dropWhile isGoReSpace
        let run := after.takeWhile (· ≠ '|')
        match after.dropWhile (· ≠ '|') with
        | '|' :: r2 =>
          if run ≠ [] then some (run, r2)
          else match ws.getLast? with
            | some w => some ([w], r2)
            | none => none
        | _ => none
      match step rest with
      | none => none
      | some (g2, r2) =>
        match step r2 with
        | none => none
        | some (g3, r3) =>
          match r3 with
          | ' ' :: r4 =>
            let g4 := r4.takeWhile isWordCh
            if g4 = [] then none
            else
              let r5 := r4.dropWhile isWordCh
              let ws2 := r5.takeWhile isGoReSpace
              if ws2 = [] then none
              else
                match r5.dropWhile isGoReSpace with
                | '"' :: r7 =>
                  let g5 := r7.takeWhile (· ≠ '"')
                  match r7.dropWhile (· ≠ '"') with
                  | '"' :: _ => if g5 = [] then none else some ([d1, d2, d3], g2, g3, g4, g5)
                  | _ => none
                | _ => none
          | _ => none
    else none
  | _ => none

/-- Unanchored leftmost search with `httpLogPattern`
(`FindStringSubmatch`). -/
def httpScan : List Char → Option (List Char × List Char × List Char × List Char × List Char)
  | [] => none
  | c :: cs =>
    match httpTryAt (c :: cs) with
    | some r => some r
    | none => httpScan cs

/-- `parseMainLogLine`: match the five-group pattern, build the entry,
then overlay the HTTP fields when the message contains an embedded HTTP
access line.  `none` is Go's `(MainLogEntry{}, false)`. -/
def parseMainLogLine (line : String) : Option MainLogEntry :=
  match mainLogLineMatch line with
  | none => none
  | some (g1, g2, g3, g4, g5) =>
    let base : MainLogEntry :=
      { Timestamp := goParseLocalDateTime g1
        RequestID := g2
        Level := trimSpace g3
        Source := g4
        Message := g5
        StatusCode := 0, Latency := "", ClientIP := "", Method := "", Path := "" }
    match httpScan g5.data with
    | none => some base
    | some (st, l, ip, m, p) =>
      some { base with
              StatusCode := goAtoi (String.mk st)
              Latency := trimSpace (String.mk l)
              ClientIP := trimSpace (String.mk ip)
              Method := trimSpace (String.mk m)
              Path := String.mk p }

/-- `bufio.ScanLines`: split at `\n`, drop one trailing `\r` per line,
no empty final token after a terminating newline. -/
def scanLines (s : String) : List String :=
  match s.data with
  | [] => []
  | cs =>
    let parts := chSplit '\n' cs
    let parts2 := if cs.getLast? = some '\n' then parts.dropLast else parts
    parts2.map (fun l => String.mk (if l.getLast? = some '\r' then l.dropLast else l))

/-- `ParseMainLog` on the bytes of an already-opened file: each line is
matched, non-matching lines are dropped. -/
def parseMainLogContent (content : String) : List MainLogEntry :=
  (scanLines content).filterMap parseMainLogLine

/-! ## Section splitter (`splitSections`, parser.go lines 267-286)

The regex `(?m)^=== (.+?) ===\s*$` matches whole header lines; the
non-greedy name is forced to extend to the last ` ===` of the
(right-trimmed) line, and the trailing `\s*` may absorb following blank
lines — which never changes a trimmed body, so the splitter is modelled
line by line.  Go stores sections in a map (later duplicate names
overwrite); the model keeps first-occurrence order with last-occurrence
bodies. -/

/-- Right-trim with the regexp whitespace class `\s` = `[\t\n\f\r ]`
(`isGoReSpace` is defined with the main-log matcher above). -/
def chTrimRightRe (cs : List Char) : List Char :=
  (cs.reverse.dropWhile isGoReSpace).reverse

/-- Does the line match `^=== (.+?) ===\s*$`, and with which name? -/
def sectionHeaderName (line : String) : Option String :=
  let l := chTrimRightRe line.data
  if 9 ≤ l.length && "=== ".data.isPrefixOf l && " ===".data.reverse.isPrefixOf l.reverse then
    some (String.mk ((l.drop 4).take (l.length - 8)))
  else none

/-- Walk the lines, starting a section at each header line; text before
the first header belongs to no section.  Bodies are joined with `\n` and
`TrimSpace`d as in the source. -/
def collectSections : List String → Option (String × List String) → List (String × String)
  | [], none => []
  | [], some (n, acc) => [(n, trimSpace (joinLines acc.reverse))]
  | l :: ls, cur =>
    match sectionHeaderName l with
    | some name =>
      match cur with
      | none => collectSections ls (some (name, []))
      | some (n, acc) =>
        (n, trimSpace (joinLines acc.reverse)) :: collectSections ls (some (name, []))
    | none =>
      match cur with
      | none => collectSections ls none
      | some (n, acc) => collectSections ls (some (n, l :: acc))

/-- Map upsert: replace the value at an existing key, else append. -/
def upsertAssoc : List (String × String) → String × String → List (String × String)
  | [], kv => [kv]
  | (k, v) :: rest, kv =>
    if k = kv.1 then (k, kv.2) :: rest else (k, v) :: upsertAssoc rest kv

def splitSections (content : String) : List (String × String) :=
  (collectSections (strSplit content '\n') none).foldl upsertAssoc []

/-- Point lookup in the (deduplicated) section map. -/
def sectionsGet (ss : List (String × String)) (name : String) : Option String :=
  (ss.find? (fun kv => kv.1 = name)).map (fun kv => kv.2)

/-! ## Transaction parser (`ParseAPILog`, parser.go lines 182-226) -/

structure UpstreamCall where
  Index : Nat
  Timestamp : Option String
  URL : String
  Method : String
  Headers : List (String × String)
  Body : String
  Status : Int
  RespHeaders : List (String × String)
  RespBody : String
deriving DecidableEq

def emptyUpstreamCall : UpstreamCall :=
  { Index := 0, Timestamp := none, URL := "", Method := "", Headers := [],
    Body := "", Status := 0, RespHeaders := [], RespBody := "" }

structure APILogEntry where
  LogType : LogType
  RequestID : String
  Timestamp : Option String
  Version : String
  URL : String
  Method : String
  Headers : List (String × String)
  RequestBody : String
  ResponseStatus : Int
  ResponseHeaders : List (String × String)
  ResponseBody : String
  FullResponse : String
  UpstreamRequests : List UpstreamCall
deriving DecidableEq

def emptyAPILogEntry (lt : LogType) (rid : String) : APILogEntry :=
  { LogType := lt, RequestID := rid, Timestamp := none, Version := "", URL := "",
    Method := "", Headers := [], RequestBody := "", ResponseStatus := 0,
    ResponseHeaders := [], ResponseBody := "", FullResponse := "", UpstreamRequests := [] }

/-- One line of the `REQUEST INFO` section. -/
def requestInfoLine (e : APILogEntry) (line0 : String) : APILogEntry :=
  let line := trimSpace line0
  if strStartsWith line "Version:" then
    { e with Version := trimSpace (strTrimPrefix line "Version:") }
  else if strStartsWith line "URL:" then
    { e with URL := trimSpace (strTrimPrefix line "URL:") }
  else if strStartsWith line "Method:" then
    { e with Method := trimSpace (strTrimPrefix line "Method:") }
  else if strStartsWith line "Timestamp:" then
    { e with Timestamp := goParseRFC3339Nano (trimSpace (strTrimPrefix line "Timestamp:")) }
  else e

def parseRequestInfo (body : String) (e : APILogEntry) : APILogEntry :=
  (strSplit body '\n').foldl requestInfoLine e

/-- One `Key: Value` line of a header block (first colon splits; a colon
at position 0 is ignored). -/
def headerLine (hs : List (String × String)) (line0 : String) : List (String × String) :=
  let line := trimSpace line0
  match chIndexOf ':' line.data with
  | some idx =>
    if 0 < idx then
      upsertAssoc hs (trimSpace (String.mk (line.data.take idx)),
                      trimSpace (String.mk (line.data.drop (idx + 1))))
    else hs
  | none => hs

def parseHeaders (body : String) : List (String × String) :=
  (strSplit body '\n').foldl headerLine []

/-- One line of the `RESPONSE` section scan: header block up to the
first blank (trimmed) line — `Status:` sets the status, other
`Key: Value` lines the response headers — then body lines (trimmed,
blank lines skipped). -/
def responseLineStep (st : APILogEntry × Bool × List String) (line0 : String) :
    APILogEntry × Bool × List String :=
  let line := trimSpace line0
  if line = "" then (st.1, true, st.2.2)
  else if st.2.1 = false then
    if strStartsWith line "Status:" then
      ({ st.1 with ResponseStatus := goAtoi (trimSpace (strTrimPrefix line "Status:")) },
       st.2.1, st.2.2)
    else
      ({ st.1 with ResponseHeaders := headerLine st.1.ResponseHeaders line }, st.2.1, st.2.2)
  else (st.1, st.2.1, line :: st.2.2)

def parseResponse (body : String) (e : APILogEntry) : APILogEntry :=
  let r := (strSplit body '\n').foldl responseLineStep (e, false, [])
  { r.1 with ResponseBody := joinLines r.2.2.reverse }

/-- `extractIndex`: first digit run of the section name
(regex `(\d+)`, `FindString`), defaulting to 1 when there is none. -/
def extractIndex (name : String) : Nat :=
  match name.data.dropWhile (fun c => ¬ isDigitCh c) with
  | [] => 1
  | rest => digitsToNat (rest.takeWhile isDigitCh)

/-- `parseUpstreamRequest` body scan: labelled lines, then `Headers:` /
`Body:` mode switches routing subsequent lines. -/
def upstreamReqStep (st : UpstreamCall × Bool × Bool × List String) (line : String) :
    UpstreamCall × Bool × Bool × List String :=
  let t := trimSpace line
  if strStartsWith t "Timestamp:" then
    ({ st.1 with Timestamp := goParseRFC3339Nano (trimSpace (strTrimPrefix t "Timestamp:")) },
     st.2.1, st.2.2.1, st.2.2.2)
  else if strStartsWith t "Upstream URL:" then
    ({ st.1 with URL := trimSpace (strTrimPrefix t "Upstream URL:") }, st.2.1, st.2.2.1, st.2.2.2)
  else if strStartsWith t "HTTP Method:" then
    ({ st.1 with Method := trimSpace (strTrimPrefix t "HTTP Method:") }, st.2.1, st.2.2.1, st.2.2.2)
  else if t = "Headers:" then (st.1, true, false, st.2.2.2)
  else if t = "Body:" then (st.1, false, true, st.2.2.2)
  else if st.2.1 then ({ st.1 with Headers := headerLine st.1.Headers t }, st.2.1, st.2.2.1, st.2.2.2)
  else if st.2.2.1 then (st.1, st.2.1, st.2.2.1, line :: st.2.2.2)
  else (st.1, st.2.1, st.2.2.1, st.2.2.2)

def parseUpstreamRequest (body : String) (idx : Nat) : UpstreamCall :=
  let r := (strSplit body '\n').foldl upstreamReqStep ({ emptyUpstreamCall with Index := idx }, false, false, [])
  { r.1 with Body := trimSpace (joinLines r.2.2.2.reverse) }

/-- `parseUpstreamResponse`: fresh response-header map, `Status:` line,
then the same `Headers:` / `Body:` mode machine. -/
def upstreamRespStep (st : UpstreamCall × Bool × Bool × List String) (line : String) :
    UpstreamCall × Bool × Bool × List String :=
  let t := trimSpace line
  if strStartsWith t "Status:" then
    ({ st.1 with Status := goAtoi (trimSpace (strTrimPrefix t "Status:")) },
     st.2.1, st.2.2.1, st.2.2.2)
  else if t = "Headers:" then (st.1, true, false, st.2.2.2)
  else if t = "Body:" then (st.1, false, true, st.2.2.2)
  else if st.2.1 then
    ({ st.1 with RespHeaders := headerLine st.1.RespHeaders t }, st.2.1, st.2.2.1, st.2.2.2)
  else if st.2.2.1 then (st.1, st.2.1, st.2.2.1, line :: st.2.2.2)
  else (st.1, st.2.1, st.2.2.1, st.2.2.2)

def parseUpstreamResponse (body : String) (call : UpstreamCall) : UpstreamCall :=
  let r := (strSplit body '\n').foldl upstreamRespStep
    ({ call with RespHeaders := [] }, false, false, [])
  { r.1 with RespBody := trimSpace (joinLines r.2.2.2.reverse) }

/-! ## Stream reconstructor (`extractFullStreamResponse`,
parser.go lines 429-473) -/

/-- Contribution of one already-trimmed `data:` payload: drop the
`[DONE]` sentinel, decode into a Go map, then append the Claude-shaped
`delta.text` followed by the OpenAI-shaped `choices[0].delta.content`
(each only when present with string type). -/
def streamPayloadContrib (dataStr : String) : String :=
  if dataStr = "[DONE]" then ""
  else
    match unmarshalMap dataStr with
    | none => ""
    | some m =>
      let claudePart :=
        match objGet m "delta" with
        | some (.obj d) =>
          match objGet d "text" with
          | some (.str t) => t
          | _ => ""
        | _ => ""
      let openaiPart :=
        match objGet m "choices" with
        | some (.arr (c0 :: _)) =>
          match c0 with
          | .obj co =>
            match objGet co "delta" with
            | some (.obj d2) =>
              match objGet d2 "content" with
              | some (.str t) => t
              | _ => ""
            | _ => ""
          | _ => ""
        | _ => ""
      claudePart ++ openaiPart

/-- The body of the Go line loop: trim the line, keep only `data:`
lines, trim the payload after the prefix, then take its contribution. -/
def streamLineContrib (line0 : String) : String :=
  let line := trimSpace line0
  if ¬ strStartsWith line "data:" then ""
  else streamPayloadContrib (trimSpace (strTrimPrefix line "data:"))

def extractFullStreamResponse (body : String) : String :=
  (strSplit body '\n').foldl (fun acc l => acc ++ streamLineContrib l) ""

/-! ## `ParseAPILog` assembly -/

/-- The body of `ParseAPILog`'s section loop: the Go `switch` over the
section name. -/
def processSection (e : APILogEntry) (name body : String) : APILogEntry :=
  if name = "REQUEST INFO" then parseRequestInfo body e
  else if name = "HEADERS" then { e with Headers := parseHeaders body }
  else if name = "REQUEST BODY" then { e with RequestBody := trimSpace body }
  else if name = "RESPONSE" then parseResponse body e
  else if strStartsWith name "API REQUEST" then
    { e with UpstreamRequests := e.UpstreamRequests ++ [parseUpstreamRequest body (extractIndex name)] }
  else if strStartsWith name "API RESPONSE" then
    let idx := extractIndex name
    if 0 < idx && idx ≤ e.UpstreamRequests.length then
      { e with UpstreamRequests := (e.UpstreamRequests.set (idx - 1)
          (parseUpstreamResponse body (e.UpstreamRequests.getD (idx - 1) emptyUpstreamCall))) }
    else e
  else e

def parseAPILogSections (e : APILogEntry) (ss : List (String × String)) : APILogEntry :=
  ss.foldl (fun e kv => processSection e kv.1 kv.2) e

/-- `ParseAPILog` on the bytes of a readable file. -/
def ParseAPILogContent (path : String) (lt : LogType) (content : String) : APILogEntry :=
  let e := parseAPILogSections (emptyAPILogEntry lt (ExtractRequestIDFromFilename path))
    (splitSections content)
  { e with FullResponse := extractFullStreamResponse e.ResponseBody }

/-! ## Event-batch parser (`ParseEventBatchLog`, parser.go lines 228-265) -/

structure EventBatchEntry where
  RequestID : String
  Timestamp : Option String
  Events : List Json

/-- First `Timestamp:`-prefixed line of `REQUEST INFO` (the Go loop
breaks after the first; the line is not trimmed before the prefix
test). -/
def eventBatchTimestamp (info : String) : Option String :=
  match (strSplit info '\n').find? (fun l => strStartsWith l "Timestamp:") with
  | some l => goParseRFC3339Nano (trimSpace (strTrimPrefix l "Timestamp:"))
  | none => none

def jsonIsObjOrNull : Json → Bool
  | .obj _ => true
  | .null => true
  | _ => false

/-- `json.Unmarshal` into `struct { Events []map[string]interface{} }`:
the input must be an object (or `null`); a missing or `null` `events`
field leaves the nil slice; an `events` array must consist of objects
(or `null`s); anything else is an unmarshalling error. -/
def decodeEvents (body : String) : Option (List Json) :=
  match jsonParse body with
  | some (.obj kvs) =>
    match objGet kvs "events" with
    | none => some []
    | some .null => some []
    | some (.arr xs) => if xs.all jsonIsObjOrNull then some xs else none
    | some _ => none
  | some .null => some []
  | _ => none

/-- `ParseEventBatchLog` on the bytes of a readable file: the record is
always produced; a body that fails to decode leaves `Events` empty. -/
def ParseEventBatchLogContent (path content : String) : EventBatchEntry :=
  let ss := splitSections content
  let ts :=
    match sectionsGet ss "REQUEST INFO" with
    | some info => eventBatchTimestamp info
    | none => none
  let evs :=
    match sectionsGet ss "REQUEST BODY" with
    | some body =>
      match decodeEvents (trimSpace body) with
      | some xs => xs
      | none => []
    | none => []
  { RequestID := ExtractRequestIDFromFilename path, Timestamp := ts, Events := evs }

/-! ## Configuration (`internal/config/config.go`) -/

structure LogTypeConfig where
  Enabled : Bool
  DeleteAfterCollect : Option Bool
deriving DecidableEq

structure LogTypesConfig where
  Main : LogTypeConfig
  V1Messages : LogTypeConfig
  V1CountTokens : LogTypeConfig
  ProviderMessages : LogTypeConfig
  ProviderCountTokens : LogTypeConfig
  ProviderResponses : LogTypeConfig
  EventBatch : LogTypeConfig
deriving DecidableEq

/-- `config.Config`, restricted to the fields the pipeline reads.
`BatchSize` is a `Nat`: the Go batching loop does not terminate for a
non-positive batch size, so the pipeline theorems assume `1 ≤ BatchSize`
(the loaded default is 1000).  `DeleteMinAge` is in seconds. -/
structure Config where
  BatchSize : Nat
  DeleteAfterCollect : Bool
  DeleteMinAge : Int
  LogTypes : LogTypesConfig
deriving DecidableEq

/-- `Config.GetLogTypeConfig`: per-type lookup by the string value of
the log type, defaulting to an enabled config. -/
def GetLogTypeConfig (c : Config) (logType : String) : LogTypeConfig :=
  if logType = "main" then c.LogTypes.Main
  else if logType = "v1_messages" then c.LogTypes.V1Messages
  else if logType = "v1_count_tokens" then c.LogTypes.V1CountTokens
  else if logType = "provider_messages" then c.LogTypes.ProviderMessages
  else if logType = "provider_count_tokens" then c.LogTypes.ProviderCountTokens
  else if logType = "provider_responses" then c.LogTypes.ProviderResponses
  else if logType = "event_batch" then c.LogTypes.EventBatch
  else { Enabled := true, DeleteAfterCollect := none }

/-- `Config.ShouldDeleteAfterCollect`: the per-type override wins, else
the global flag. -/
def ShouldDeleteAfterCollect (c : Config) (logType : String) : Bool :=
  match (GetLogTypeConfig c logType).DeleteAfterCollect with
  | some b => b
  | none => c.DeleteAfterCollect

/-! ## The per-file pipeline (`processFile` / `tryDeleteFile`,
collector.go)

The ambient effects are made explicit:

* the file system is a map from path to `File` (`none` = `os.Stat`
  fails); a `File` carries the stat fingerprint and `some content` when
  the bytes are readable (`none` = the parser's read fails, the only
  error path any of the three parsers has);
* the storage sink is a list of `processed_files` rows plus a success
  `Oracle`: `insertOK n` decides the n-th insert call of this
  invocation, `markOK` the `MarkFileProcessed` call, `checkErr` makes
  `IsFileProcessed` fail;
* `now` is the wall clock (integer nanoseconds) read by `time.Since`.

The invocation's observable behaviour is returned in `PFResult`:
which guards passed, which parser branch was dispatched, the records
extracted, each insert call with its payload and outcome, and whether
`MarkFileProcessed` / deletion ran. -/

structure File where
  size : Int
  mtime : Int
  content : Option String

abbrev FS : Type := String → Option File

structure PFEntry where
  path : String
  size : Int
  mtime : Int
  rc : Nat
deriving DecidableEq

abbrev Storage : Type := List PFEntry

/-- `IsFileProcessed`: `SELECT count() … WHERE file_path = ? AND
file_size = ? AND file_mtime = ?` is positive. -/
def IsFileProcessed (st : Storage) (path : String) (size mtime : Int) : Bool :=
  st.any (fun e => e.path = path && e.size = size && e.mtime = mtime)

structure Oracle where
  checkErr : Bool
  insertOK : Nat → Bool
  markOK : Bool

/-- A record handed to the storage sink. -/
inductive Rec where
  | mainRec (e : MainLogEntry)
  | apiRec (e : APILogEntry)
  | eventRec (e : EventBatchEntry)

inductive ParserKind where
  | mainP
  | apiP
  | eventP
deriving DecidableEq

/-- The batching loop `for i := 0; i < len(entries); i += batchSize`:
successive slices `entries[i:min(i+batchSize, len)]`.  The fuel is the
list length, which always suffices for a positive batch size; the Go
loop does not terminate for batch size 0 and the pipeline theorems
assume `1 ≤ BatchSize`. -/
def chunkGo {α : Type} (bs : Nat) : Nat → List α → List (List α)
  | 0, _ => []
  | _, [] => []
  | fuel + 1, x :: xs => ((x :: xs).take bs) :: chunkGo bs fuel ((x :: xs).drop bs)

def chunkList {α : Type} (bs : Nat) (l : List α) : List (List α) :=
  if bs = 0 then [] else chunkGo bs l.length l

/-- Issue the insert calls in order, stopping at the first failure (the
Go loop returns on the first error). -/
def runInserts (oracle : Oracle) : Nat → List (List Rec) → List (List Rec × Bool)
  | _, [] => []
  | i, c :: rest =>
    if oracle.insertOK i then (c, true) :: runInserts oracle (i + 1) rest
    else [(c, false)]

/-- Records contained in the successful insert calls. -/
def handedOf (inserts : List (List Rec × Bool)) : List Rec :=
  ((inserts.filter (fun p => p.2)).map Prod.fst).flatten

structure PFResult where
  statOk : Bool
  checkOk : Bool
  fresh : Bool
  enabled : Bool
  dispatched : Option ParserKind
  parseOk : Bool
  extracted : List Rec
  inserts : List (List Rec × Bool)
  recordCount : Nat
  markCalled : Bool
  markOk : Bool
  removed : Bool

def abandonResult (statOk checkOk fresh enabled : Bool) : PFResult :=
  { statOk := statOk, checkOk := checkOk, fresh := fresh, enabled := enabled,
    dispatched := none, parseOk := false, extracted := [], inserts := [],
    recordCount := 0, markCalled := false, markOk := false, removed := false }

/-- The `switch logType` dispatch of `processFile`: which parser runs,
whether it succeeded, the extracted records, the insert calls made, and
the record count.  `provider_responses` has no case in the Go switch:
no parser runs, nothing is inserted, and the count stays 0. -/
def dispatchParse (cfg : Config) (oracle : Oracle) (lt : LogType) (path : String)
    (avail : Option String) :
    Option ParserKind × Bool × List Rec × List (List Rec × Bool) × Nat :=
  match lt with
  | .main =>
    match avail with
    | none => (some .mainP, false, [], [], 0)
    | some c =>
      let recs := (parseMainLogContent c).map Rec.mainRec
      (some .mainP, true, recs, runInserts oracle 0 (chunkList cfg.BatchSize recs), recs.length)
  | .v1_messages | .v1_count_tokens | .provider_messages | .provider_count_tokens =>
    match avail with
    | none => (some .apiP, false, [], [], 0)
    | some c =>
      let entry := ParseAPILogContent path lt c
      (some .apiP, true, [Rec.apiRec entry], [([Rec.apiRec entry], oracle.insertOK 0)], 1)
  | .event_batch =>
    match avail with
    | none => (some .eventP, false, [], [], 0)
    | some c =>
      let entry := ParseEventBatchLogContent path c
      (some .eventP, true, [Rec.eventRec entry],
        [([Rec.eventRec entry], oracle.insertOK 0)], entry.Events.length)
  | .provider_responses => (none, true, [], [], 0)

/-- `tryDeleteFile`: refuse while the file is younger than the
configured minimum age, refuse the literal `main.log`, otherwise remove
the path. -/
def tryDeleteFile (cfg : Config) (now : Int) (fs : FS) (path : String) (info : File) : FS :=
  if now - info.mtime < cfg.DeleteMinAge * 1000000000 then fs
  else if filepathBase path = "main.log" then fs
  else fun q => if q = path then none else fs q

/-- `processFile`: stat, already-processed check, enabled check,
dispatch, emission, mark, conditional delete. -/
def processFile (cfg : Config) (oracle : Oracle) (now : Int) (fs : FS) (st : Storage)
    (path : String) : PFResult × Storage × FS :=
  match fs path with
  | none => (abandonResult false false false false, st, fs)
  | some info =>
    if oracle.checkErr then (abandonResult true false false false, st, fs)
    else if IsFileProcessed st path info.size info.mtime then
      (abandonResult true true false false, st, fs)
    else
      let lt := DetermineLogType path
      if (GetLogTypeConfig cfg (logTypeStr lt)).Enabled = false then
        (abandonResult true true true false, st, fs)
      else
        match dispatchParse cfg oracle lt path info.content with
        | (disp, pOk, extr, ins, rc) =>
          if pOk && ins.all (fun p => p.2) then
            let st2 := if oracle.markOK then st ++ [⟨path, info.size, info.mtime, rc⟩] else st
            let shouldDel := oracle.markOK && ShouldDeleteAfterCollect cfg (logTypeStr lt)
            let fs2 := if shouldDel then tryDeleteFile cfg now fs path info else fs
            let removed := shouldDel &&
              ¬ (now - info.mtime < cfg.DeleteMinAge * 1000000000) &&
              ¬ (filepathBase path = "main.log")
            ({ statOk := true, checkOk := true, fresh := true, enabled := true,
               dispatched := disp, parseOk := pOk, extracted := extr, inserts := ins,
               recordCount := rc, markCalled := true, markOk := oracle.markOK,
               removed := removed }, st2, fs2)
          else
            ({ statOk := true, checkOk := true, fresh := true, enabled := true,
               dispatched := disp, parseOk := pOk, extracted := extr, inserts := ins,
               recordCount := rc, markCalled := false, markOk := false,
               removed := false }, st, fs)

/-! ## Claim C7: the main-log example line and silent drops -/

def c7Line : String :=
  "[2026-01-08 09:29:48] [a3523f75] [info ] [main.go:413] 200 |    12ms |   1.2.3.4 | GET    \"/health\""

/-- C7: `parseMainLog` on a file containing only the documented example
line yields exactly one record with correlation id `a3523f75`, level
`info` (trailing space trimmed), status 200, method `GET` and path
`/health`; and a file none of whose lines match the five-group pattern
yields no records (and no error: the parsers only fail on unreadable
files, which the `content` argument here already excludes). -/
theorem parseMainLog_example_and_silent_drop :
    ((parseMainLogContent c7Line).map
        (fun e => (e.RequestID, e.Level, e.StatusCode, e.Method, e.Path)) =
      [("a3523f75", "info", (200 : Int), "GET", "/health")]) ∧
    ∀ content : String, (∀ l ∈ scanLines content, mainLogLineMatch l = none) →
      parseMainLogContent content = [] := by
  constructor
  · decide
  · intro content h
    unfold parseMainLogContent
    rw [List.filterMap_eq_nil_iff]
    intro l hl
    unfold parseMainLogLine
    rw [h l hl]

/-- Witness for C7: a concrete file with no matching line is parsed to
the empty record list. -/
theorem parseMainLog_example_and_silent_drop_w :
    parseMainLogContent "hello\nworld" = [] :=
  parseMainLog_example_and_silent_drop.2 "hello\nworld" (by decide)

/-! ## Claim C8: event-batch decode failure still yields a record -/

/-- `ParseEventBatchLog` at the file level: `none` is the I/O error
return (stat or read failure), the only error path the function has. -/
def ParseEventBatchLog (fs : FS) (path : String) : Option EventBatchEntry :=
  match fs path with
  | none => none
  | some f =>
    match f.content with
    | none => none
    | some c => some (ParseEventBatchLogContent path c)

/-- C8: on a readable event-batch file whose `REQUEST BODY` section
fails to decode, `ParseEventBatchLog` still returns a record — not an
error — carrying the correlation id extracted from the file name and
the timestamp read from `REQUEST INFO`, with an empty event
sequence. -/
theorem parseEventBatch_decode_failure (fs : FS) (path : String) (f : File)
    (c body : String)
    (h1 : fs path = some f) (h2 : f.content = some c)
    (h3 : sectionsGet (splitSections c) "REQUEST BODY" = some body)
    (h4 : decodeEvents (trimSpace body) = none) :
    ParseEventBatchLog fs path = some (ParseEventBatchLogContent path c) ∧
    (ParseEventBatchLogContent path c).Events = [] ∧
    (ParseEventBatchLogContent path c).RequestID = ExtractRequestIDFromFilename path ∧
    (ParseEventBatchLogContent path c).Timestamp =
      (match sectionsGet (splitSections c) "REQUEST INFO" with
       | some info => eventBatchTimestamp info
       | none => none) := by
  refine ⟨?_, ?_, rfl, rfl⟩
  · unfold ParseEventBatchLog
    rw [h1]
    simp only []
    rw [h2]
  · unfold ParseEventBatchLogContent
    simp only [h3, h4]

def c8FileName : String := "api-provider-agy-api-event_logging-batch-2026-01-08T103603-abcdef01.log"

def c8Content : String :=
  "=== REQUEST INFO ===\nTimestamp: 2026-01-08T10:36:03.123456Z\n=== REQUEST BODY ===\nnot json\n"

def c8FS : FS := fun p =>
  if p = c8FileName then some { size := 90, mtime := 0, content := some c8Content } else none

/-- Witness for C8: a concrete readable event-batch file whose body is
not JSON yields a record with the file-name id, the `REQUEST INFO`
timestamp, and no events. -/
theorem parseEventBatch_decode_failure_w :
    ParseEventBatchLog c8FS c8FileName = some (ParseEventBatchLogContent c8FileName c8Content) ∧
    (ParseEventBatchLogContent c8FileName c8Content).Events = [] ∧
    (ParseEventBatchLogContent c8FileName c8Content).RequestID =
      ExtractRequestIDFromFilename c8FileName ∧
    (ParseEventBatchLogContent c8FileName c8Content).Timestamp =
      (match sectionsGet (splitSections c8Content) "REQUEST INFO" with
       | some info => eventBatchTimestamp info
       | none => none) :=
  parseEventBatch_decode_failure c8FS c8FileName
    { size := 90, mtime := 0, content := some c8Content }
    c8Content "not json" (by rfl) (by rfl) (by rfl) (by rfl)

/-! ## Claim C6: the stream reconstructor -/

/-- Claim C6's per-line rule, taken literally: a line contributes only
when the line itself begins with `data:`; the payload is then handled
exactly as the code does. -/
def claimLineContrib (line : String) : String :=
  if ¬ strStartsWith line "data:" then ""
  else streamPayloadContrib (trimSpace (strTrimPrefix line "data:"))

/-- Plain concatenation of a list of strings, no separators. -/
def strConcat : List String → String
  | [] => ""
  | s :: ss => s ++ strConcat ss

lemma foldl_append_eq_concat (f : String → String) :
    ∀ (ls : List String) (acc : String),
      ls.foldl (fun a l => a ++ f l) acc = acc ++ strConcat (ls.map f) := by
  intro ls
  induction ls with
  | nil => intro acc; simp [strConcat]
  | cons x xs ih =>
    intro acc
    simp only [List.foldl_cons, List.map_cons, strConcat]
    rw [ih, String.append_assoc]

def c6CexLine : String := " data: \x7b\"delta\":\x7b\"text\":\"A\"\x7d\x7d"

/-- Counterexample to C6 as stated: a line that begins with a space
(and therefore does not begin with `data:`) still contributes, because
the code trims each line before testing the prefix.  The claim's
predicted output for this input is `""`; the code returns `"A"`. -/
theorem extractFullStreamResponse_c6_cex :
    extractFullStreamResponse c6CexLine = "A" ∧
    strStartsWith c6CexLine "data:" = false ∧
    strConcat ((strSplit c6CexLine '\n').map claimLineContrib) = "" := by
  exact ⟨by rfl, by rfl, by rfl⟩

def c6Ex1 : String :=
  "data: \x7b\"delta\":\x7b\"text\":\"A\"\x7d\x7d\ndata: \x7b\"delta\":\x7b\"text\":\"B\"\x7d\x7d\ndata: [DONE]"

def c6Ex2 : String := "data: \x7b\"choices\":[\x7b\"delta\":\x7b\"content\":\"X\"\x7d\x7d]\x7d"

def c6Ex3 : String := "data: \x7bmalformed\ndata: \x7b\"delta\":\x7b\"text\":\"Y\"\x7d\x7d"

/-- C6 as amended: the reconstruction is the separator-free
concatenation, in line order, of the contributions of the lines whose
whitespace-trimmed text begins with `data:` (payloads likewise trimmed;
`[DONE]`, JSON parse failures and other shapes contribute nothing and
do not abort later lines); the two documented examples yield `"AB"` and
`"X"`, and a malformed line is skipped without aborting the valid line
after it. -/
theorem extractFullStreamResponse_spec :
    (∀ body : String,
      extractFullStreamResponse body =
        strConcat ((strSplit body '\n').map (fun l => claimLineContrib (trimSpace l)))) ∧
    extractFullStreamResponse c6Ex1 = "AB" ∧
    extractFullStreamResponse c6Ex2 = "X" ∧
    extractFullStreamResponse c6Ex3 = "Y" := by
  refine ⟨?_, by rfl, by rfl, by rfl⟩
  intro body
  unfold extractFullStreamResponse
  rw [foldl_append_eq_concat streamLineContrib (strSplit body '\n') ""]
  rfl

/-! ## Claim C1: `API RESPONSE <n>` handling -/

def c1File : String :=
  "=== API REQUEST 2 ===\nUpstream URL: http://u2\n=== API RESPONSE 1 ===\nStatus: 500\n"

/-- Counterexample to C1 as stated: this transaction file has no
`API REQUEST 1` section, so the claim requires the `API RESPONSE 1`
section to be dropped with the upstream-call state unchanged — but the
code indexes the slice positionally, so the response is applied to the
single stored call, which is the one declared by `API REQUEST 2`
(status becomes 500 instead of staying 0). -/
theorem apiResponse_c1_cex :
    (splitSections c1File).map Prod.fst = ["API REQUEST 2", "API RESPONSE 1"] ∧
    (ParseAPILogContent "x.log" .provider_messages c1File).UpstreamRequests.map
        (fun u => (u.Index, u.Status)) = [(2, (500 : Int))] := by
  exact ⟨by rfl, by rfl⟩

lemma apiResponse_name_facts (name : String)
    (h : strStartsWith name "API RESPONSE" = true) :
    name ≠ "REQUEST INFO" ∧ name ≠ "HEADERS" ∧ name ≠ "REQUEST BODY" ∧
    name ≠ "RESPONSE" ∧ strStartsWith name "API REQUEST" = false := by
  refine ⟨?_, ?_, ?_, ?_, ?_⟩
  · intro he; rw [he] at h; exact absurd h (by decide)
  · intro he; rw [he] at h; exact absurd h (by decide)
  · intro he; rw [he] at h; exact absurd h (by decide)
  · intro he; rw [he] at h; exact absurd h (by decide)
  · unfold strStartsWith at *
    rw [List.isPrefixOf_iff_prefix] at h
    obtain ⟨t, ht⟩ := h
    rw [Bool.eq_false_iff]
    intro hc
    rw [List.isPrefixOf_iff_prefix] at hc
    obtain ⟨u, hu⟩ := hc
    rw [← ht] at hu
    have h7 := congrArg (List.take 7) hu
    rw [List.take_append_of_le_length (by decide),
      List.take_append_of_le_length (by decide)] at h7
    exact absurd h7 (by decide)

lemma apiRequest_name_facts (name : String)
    (h : strStartsWith name "API REQUEST" = true) :
    name ≠ "REQUEST INFO" ∧ name ≠ "HEADERS" ∧ name ≠ "REQUEST BODY" ∧
    name ≠ "RESPONSE" := by
  refine ⟨?_, ?_, ?_, ?_⟩ <;>
    (intro he; rw [he] at h; exact absurd h (by decide))

lemma requestInfoLine_upstream (e : APILogEntry) (l : String) :
    (requestInfoLine e l).UpstreamRequests = e.UpstreamRequests := by
  unfold requestInfoLine
  dsimp only
  repeat' split
  all_goals rfl

lemma parseRequestInfo_upstream (body : String) (e : APILogEntry) :
    (parseRequestInfo body e).UpstreamRequests = e.UpstreamRequests := by
  unfold parseRequestInfo
  generalize strSplit body '\n' = ls
  induction ls generalizing e with
  | nil => rfl
  | cons x xs ih => rw [List.foldl_cons, ih, requestInfoLine_upstream]

lemma responseLineStep_upstream (st : APILogEntry × Bool × List String) (l : String) :
    (responseLineStep st l).1.UpstreamRequests = st.1.UpstreamRequests := by
  unfold responseLineStep
  dsimp only
  repeat' split
  all_goals rfl

lemma parseResponse_upstream (body : String) (e : APILogEntry) :
    (parseResponse body e).UpstreamRequests = e.UpstreamRequests := by
  unfold parseResponse
  have key : ∀ (ls : List String) (st : APILogEntry × Bool × List String),
      (ls.foldl responseLineStep st).1.UpstreamRequests = st.1.UpstreamRequests := by
    intro ls
    induction ls with
    | nil => intro st; rfl
    | cons x xs ih => intro st; rw [List.foldl_cons, ih, responseLineStep_upstream]
  exact key _ _

/-- The section switch changes the number of stored upstream calls by
exactly one per `API REQUEST`-prefixed section and never otherwise. -/
lemma processSection_length (e : APILogEntry) (name body : String) :
    (processSection e name body).UpstreamRequests.length =
      e.UpstreamRequests.length +
        (if strStartsWith name "API REQUEST" = true then 1 else 0) := by
  unfold processSection
  by_cases h1 : name = "REQUEST INFO"
  · subst h1
    rw [if_pos rfl, parseRequestInfo_upstream,
      if_neg (by decide : ¬ strStartsWith "REQUEST INFO" "API REQUEST" = true)]
    rfl
  · rw [if_neg h1]
    by_cases h2 : name = "HEADERS"
    · subst h2
      rw [if_pos rfl, if_neg (by decide : ¬ strStartsWith "HEADERS" "API REQUEST" = true)]
      rfl
    · rw [if_neg h2]
      by_cases h3 : name = "REQUEST BODY"
      · subst h3
        rw [if_pos rfl,
          if_neg (by decide : ¬ strStartsWith "REQUEST BODY" "API REQUEST" = true)]
        rfl
      · rw [if_neg h3]
        by_cases h4 : name = "RESPONSE"
        · subst h4
          rw [if_pos rfl, parseResponse_upstream,
            if_neg (by decide : ¬ strStartsWith "RESPONSE" "API REQUEST" = true)]
          rfl
        · rw [if_neg h4]
          by_cases h5 : strStartsWith name "API REQUEST" = true
          · rw [if_pos h5, if_pos h5]
            simp
          · rw [if_neg h5, if_neg h5]
            by_cases h6 : strStartsWith name "API RESPONSE" = true
            · rw [if_pos h6]
              dsimp only
              split
              · simp
              · rfl
            · rw [if_neg h6]
              rfl

/-- C1 as amended: an `API RESPONSE` section with extracted ordinal `n`
is applied if and only if at least `n` upstream requests have been
stored when it is processed — it then rewrites the `n`-th stored call
*positionally* (the call written by the `n`-th `API REQUEST`-prefixed
section in processing order, whose own number may differ from `n`) and
changes nothing else; with `n = 0` or `n` beyond the stored count the
section is dropped and the entry is unchanged.  No record is ever
fabricated: the number of stored upstream calls equals the number of
`API REQUEST`-prefixed sections processed. -/
theorem apiResponse_positional_update :
    (∀ (e : APILogEntry) (name body : String),
        strStartsWith name "API RESPONSE" = true →
        (extractIndex name = 0 ∨ e.UpstreamRequests.length < extractIndex name) →
        processSection e name body = e) ∧
    (∀ (e : APILogEntry) (name body : String),
        strStartsWith name "API RESPONSE" = true →
        1 ≤ extractIndex name → extractIndex name ≤ e.UpstreamRequests.length →
        processSection e name body =
          { e with UpstreamRequests := (e.UpstreamRequests.set (extractIndex name - 1)
              (parseUpstreamResponse body
                (e.UpstreamRequests.getD (extractIndex name - 1) emptyUpstreamCall))) }) ∧
    (∀ (ss : List (String × String)) (e0 : APILogEntry),
        (parseAPILogSections e0 ss).UpstreamRequests.length =
          e0.UpstreamRequests.length +
            ss.countP (fun s => strStartsWith s.1 "API REQUEST")) := by
  refine ⟨?_, ?_, ?_⟩
  · intro e name body h hidx
    have facts := apiResponse_name_facts name h
    unfold processSection
    rw [if_neg facts.1, if_neg facts.2.1, if_neg facts.2.2.1, if_neg facts.2.2.2.1,
      if_neg (by simp [facts.2.2.2.2] : ¬ strStartsWith name "API REQUEST" = true),
      if_pos h]
    dsimp only
    rw [if_neg ?hc]
    case hc =>
      simp only [Bool.and_eq_true, decide_eq_true_eq]
      intro hc
      rcases hidx with h0 | hlt <;> omega
  · intro e name body h h1 h2
    have facts := apiResponse_name_facts name h
    unfold processSection
    rw [if_neg facts.1, if_neg facts.2.1, if_neg facts.2.2.1, if_neg facts.2.2.2.1,
      if_neg (by simp [facts.2.2.2.2] : ¬ strStartsWith name "API REQUEST" = true),
      if_pos h]
    dsimp only
    rw [if_pos (by simp only [Bool.and_eq_true, decide_eq_true_eq]; exact ⟨h1, h2⟩)]
  · intro ss
    unfold parseAPILogSections
    induction ss with
    | nil => intro e0; simp
    | cons s rest ih =>
      intro e0
      simp only [List.foldl_cons]
      rw [ih, processSection_length, List.countP_cons]
      by_cases hp : strStartsWith s.1 "API REQUEST" = true
      · simp only [hp]
        simp only [if_true]
        omega
      · simp only [hp]
        simp only [Bool.false_eq_true, if_false]
        omega

def c1EntryA : APILogEntry := emptyAPILogEntry .provider_messages ""

def c1EntryB : APILogEntry :=
  { emptyAPILogEntry .provider_messages "" with UpstreamRequests := [emptyUpstreamCall] }

/-- Witness for the amended C1: with no stored call, `API RESPONSE 1`
is dropped; with one stored call it rewrites position 1; the section
count law holds on the counterexample file. -/
theorem apiResponse_positional_update_w :
    processSection c1EntryA "API RESPONSE 1" "Status: 500" = c1EntryA ∧
    processSection c1EntryB "API RESPONSE 1" "Status: 500" =
      { c1EntryB with UpstreamRequests := (c1EntryB.UpstreamRequests.set
          (extractIndex "API RESPONSE 1" - 1)
          (parseUpstreamResponse "Status: 500"
            (c1EntryB.UpstreamRequests.getD (extractIndex "API RESPONSE 1" - 1)
              emptyUpstreamCall))) } ∧
    (parseAPILogSections c1EntryA (splitSections c1File)).UpstreamRequests.length =
      c1EntryA.UpstreamRequests.length +
        (splitSections c1File).countP (fun s => strStartsWith s.1 "API REQUEST") :=
  ⟨apiResponse_positional_update.1 c1EntryA "API RESPONSE 1" "Status: 500" (by decide)
      (Or.inr (by decide)),
   apiResponse_positional_update.2.1 c1EntryB "API RESPONSE 1" "Status: 500" (by decide)
      (by decide) (by decide),
   apiResponse_positional_update.2.2 (splitSections c1File) c1EntryA⟩

/-! ## Claim C9: deletion policy -/

/-- C9: deletion runs only downstream of a successful
`MarkFileProcessed` (a removal implies the mark call happened and
succeeded), is refused while the file's modification time is within the
configured minimum age, and is always refused for a file whose base
name is the literal `main.log`, regardless of policy. -/
theorem deletion_policy (cfg : Config) (oracle : Oracle) (now : Int) (fs : FS)
    (st : Storage) (path : String) (info : File) :
    ((processFile cfg oracle now fs st path).1.removed = true →
      (processFile cfg oracle now fs st path).1.markCalled = true ∧
      (processFile cfg oracle now fs st path).1.markOk = true) ∧
    (now - info.mtime < cfg.DeleteMinAge * 1000000000 →
      tryDeleteFile cfg now fs path info = fs) ∧
    (filepathBase path = "main.log" → tryDeleteFile cfg now fs path info = fs) := by
  refine ⟨?_, ?_, ?_⟩
  · unfold processFile
    cases hfe : fs path with
    | none => intro h; simp [abandonResult] at h
    | some info2 =>
      dsimp only
      split
      · intro h; simp [abandonResult] at h
      · split
        · intro h; simp [abandonResult] at h
        · split
          · intro h; simp [abandonResult] at h
          · split
            · intro h
              refine ⟨rfl, ?_⟩
              simp only [Bool.and_eq_true] at h
              exact h.1.1.1
            · intro h; simp at h
  · intro h
    unfold tryDeleteFile
    rw [if_pos h]
  · intro h
    unfold tryDeleteFile
    split
    · rfl
    · simp [h]

def cfgW : Config :=
  { BatchSize := 2, DeleteAfterCollect := false, DeleteMinAge := 300,
    LogTypes :=
      { Main := ⟨true, none⟩, V1Messages := ⟨true, none⟩, V1CountTokens := ⟨true, none⟩,
        ProviderMessages := ⟨true, none⟩, ProviderCountTokens := ⟨true, none⟩,
        ProviderResponses := ⟨true, none⟩, EventBatch := ⟨true, none⟩ } }

def oracleW : Oracle := { checkErr := false, insertOK := fun _ => true, markOK := true }

def fsEmpty : FS := fun _ => none

def c9File : File := { size := 5, mtime := 0, content := some "" }

/-- Witness for C9: a too-young file and the literal `main.log` are
both left in place, and the removal-implies-marked implication is
instantiated on a concrete invocation. -/
theorem deletion_policy_w :
    ((processFile cfgW oracleW 0 fsEmpty [] "main.log").1.removed = true →
      (processFile cfgW oracleW 0 fsEmpty [] "main.log").1.markCalled = true ∧
      (processFile cfgW oracleW 0 fsEmpty [] "main.log").1.markOk = true) ∧
    tryDeleteFile cfgW 0 fsEmpty "main.log" c9File = fsEmpty ∧
    tryDeleteFile cfgW 0 fsEmpty "/logs/main.log" c9File = fsEmpty := by
  refine ⟨?_, ?_, ?_⟩
  · exact (deletion_policy cfgW oracleW 0 fsEmpty [] "main.log" c9File).1
  · exact (deletion_policy cfgW oracleW 0 fsEmpty [] "main.log" c9File).2.1 (by decide)
  · exact (deletion_policy cfgW oracleW 0 fsEmpty [] "/logs/main.log" c9File).2.2 (by decide)

/-! ## Claim C3: dispatch per log kind

The Go `switch logType` in `processFile` has cases for `main`, the four
transaction kinds, and `event_batch` — but none for
`provider_responses`, although the classifier produces that kind, the
configuration carries an enabled flag for it, and the repository's own
README lists all `api-provider-agy-*` logs among the parsed types.  An
enabled, unprocessed `provider_responses` file therefore runs no
parser, emits nothing, and is still marked processed with a record
count of 0 (and is then eligible for deletion): the claim (and the
documentation) describe the evident intent, the switch omits the
case. -/

def c3FileName : String := "api-provider-agy-responses-2026-01-08T103603-abcdef12.log"

def c3FS : FS := fun p =>
  if p = c3FileName then
    some { size := 40, mtime := 0, content := some "=== REQUEST INFO ===\nURL: http://x\n" }
  else none

/-- C3 failing input, evaluated: the file classifies as
`provider_responses` and its kind is enabled, yet no parser is
dispatched, nothing is extracted or inserted, and the file is marked
processed with count 0. -/
theorem providerResponses_dropped_but_marked :
    DetermineLogType c3FileName = LogType.provider_responses ∧
    (GetLogTypeConfig cfgW (logTypeStr LogType.provider_responses)).Enabled = true ∧
    (processFile cfgW oracleW 0 c3FS [] c3FileName).1.dispatched = none ∧
    (processFile cfgW oracleW 0 c3FS [] c3FileName).1.inserts = [] ∧
    (processFile cfgW oracleW 0 c3FS [] c3FileName).1.extracted = [] ∧
    (processFile cfgW oracleW 0 c3FS [] c3FileName).1.markCalled = true ∧
    (processFile cfgW oracleW 0 c3FS [] c3FileName).1.recordCount = 0 ∧
    (processFile cfgW oracleW 0 c3FS [] c3FileName).2.1 = [⟨c3FileName, 40, 0, 0⟩] :=
  ⟨rfl, rfl, rfl, rfl, rfl, rfl, rfl, rfl⟩

/-! ## Claim C2: marked iff fully emitted -/

lemma chunkGo_flatten {α : Type} (bs : Nat) (hbs : 1 ≤ bs) :
    ∀ (fuel : Nat) (l : List α), l.length ≤ fuel →
    (chunkGo bs fuel l).flatten = l := by
  intro fuel
  induction fuel with
  | zero =>
    intro l hl
    cases l with
    | nil => rfl
    | cons x xs => simp at hl
  | succ f ih =>
    intro l hl
    cases l with
    | nil => rfl
    | cons x xs =>
      rw [chunkGo]
      simp only [List.flatten_cons]
      simp only [List.length_cons] at hl
      rw [ih _ (by simp only [List.length_drop, List.length_cons]; omega)]
      exact List.take_append_drop _ _

lemma chunkList_flatten {α : Type} : ∀ (bs : Nat) (l : List α), 1 ≤ bs →
    (chunkList bs l).flatten = l := by
  intro bs l hbs
  unfold chunkList
  rw [if_neg (by omega)]
  exact chunkGo_flatten bs hbs l.length l (le_refl _)

lemma runInserts_all_ok (oracle : Oracle) : ∀ (cs : List (List Rec)) (i : Nat),
    (runInserts oracle i cs).all (fun p => p.2) = true →
    handedOf (runInserts oracle i cs) = cs.flatten := by
  intro cs
  induction cs with
  | nil => intro i h; rfl
  | cons c rest ih =>
    intro i h
    rw [runInserts] at *
    by_cases hc : oracle.insertOK i = true
    · rw [if_pos hc] at h ⊢
      simp only [List.all_cons, Bool.and_eq_true] at h
      have := ih (i + 1) h.2
      simp only [List.flatten_cons]
      rw [← this]
      rfl
    · rw [if_neg hc] at h
      simp at h

lemma runInserts_all_of_oracle (oracle : Oracle) (hall : ∀ n, oracle.insertOK n = true) :
    ∀ (cs : List (List Rec)) (i : Nat),
    (runInserts oracle i cs).all (fun p => p.2) = true := by
  intro cs
  induction cs with
  | nil => intro i; rfl
  | cons c rest ih =>
    intro i
    rw [runInserts, if_pos (hall i)]
    simp only [List.all_cons, Bool.and_eq_true]
    exact ⟨trivial, ih (i + 1)⟩

/-- When all issued insert calls succeeded, the dispatched branch handed
exactly its extracted records to the sink. -/
lemma dispatchParse_handed (cfg : Config) (oracle : Oracle) (lt : LogType) (path : String)
    (avail : Option String) (hbs : 1 ≤ cfg.BatchSize)
    (h : (dispatchParse cfg oracle lt path avail).2.2.2.1.all (fun p => p.2) = true) :
    handedOf (dispatchParse cfg oracle lt path avail).2.2.2.1 =
      (dispatchParse cfg oracle lt path avail).2.2.1 := by
  cases lt <;> cases avail <;>
    simp only [dispatchParse] at h ⊢ <;>
    first
      | rfl
      | (rw [runInserts_all_ok oracle _ 0 h, chunkList_flatten _ _ hbs])
      | (rcases hb : oracle.insertOK 0 <;> rw [hb] at h <;> simp_all [handedOf])

/-- C2: `MarkFileProcessed` is called exactly when the invocation got
through its guards, the dispatched parse succeeded and every insert
call succeeded — and a marked invocation handed every extracted record
to the sink (never a strict subset). -/
theorem mark_iff_full_emission (cfg : Config) (oracle : Oracle) (now : Int) (fs : FS)
    (st : Storage) (path : String) (hbs : 1 ≤ cfg.BatchSize) :
    ((processFile cfg oracle now fs st path).1.markCalled = true →
      ((processFile cfg oracle now fs st path).1.inserts.all (fun p => p.2) = true ∧
       handedOf (processFile cfg oracle now fs st path).1.inserts =
         (processFile cfg oracle now fs st path).1.extracted)) ∧
    ((processFile cfg oracle now fs st path).1.statOk = true →
     (processFile cfg oracle now fs st path).1.checkOk = true →
     (processFile cfg oracle now fs st path).1.fresh = true →
     (processFile cfg oracle now fs st path).1.enabled = true →
     (processFile cfg oracle now fs st path).1.parseOk = true →
     (processFile cfg oracle now fs st path).1.inserts.all (fun p => p.2) = true →
     (processFile cfg oracle now fs st path).1.markCalled = true) := by
  constructor
  · unfold processFile
    cases hfe : fs path with
    | none => intro h; simp [abandonResult] at h
    | some info =>
      dsimp only
      split
      · intro h; simp [abandonResult] at h
      · split
        · intro h; simp [abandonResult] at h
        · split
          · intro h; simp [abandonResult] at h
          · split
            · rename_i hcond
              intro _
              simp only [Bool.and_eq_true] at hcond
              exact ⟨hcond.2, dispatchParse_handed cfg oracle _ path info.content hbs hcond.2⟩
            · intro h; simp at h
  · unfold processFile
    cases hfe : fs path with
    | none => simp [abandonResult]
    | some info =>
      dsimp only
      split
      · simp [abandonResult]
      · split
        · simp [abandonResult]
        · split
          · simp [abandonResult]
          · split
            · intro _ _ _ _ _ _; rfl
            · rename_i hcond
              intro _ _ _ _ h5 h6
              exact absurd (Bool.and_eq_true _ _ |>.mpr ⟨h5, h6⟩) hcond

def c2FS : FS :=
  fun p => if p = "main.log" then some { size := 7, mtime := 0, content := some "" } else none

/-- Witness for C2: a concrete fresh, enabled, readable file with an
all-successful sink is marked. -/
theorem mark_iff_full_emission_w :
    (processFile cfgW oracleW 0 c2FS [] "main.log").1.markCalled = true :=
  (mark_iff_full_emission cfgW oracleW 0 c2FS [] "main.log" (by decide)).2
    (by rfl) (by rfl) (by rfl) (by rfl) (by rfl) (by rfl)

/-! ## Claim C4: idempotence and fingerprint-based reprocessing -/

/-- A fully successful invocation: guards pass, parse and all inserts
succeed, the mark succeeds, deletion is off — the file is marked, the
fingerprint row is appended, the file system is untouched. -/
lemma processFile_success_proj (cfg : Config) (oracle : Oracle) (now : Int) (fs : FS)
    (st : Storage) (path : String) (file : File)
    (hfs : fs path = some file)
    (hchk : oracle.checkErr = false)
    (hproc : IsFileProcessed st path file.size file.mtime = false)
    (hen : (GetLogTypeConfig cfg (logTypeStr (DetermineLogType path))).Enabled = true)
    (hok : ((dispatchParse cfg oracle (DetermineLogType path) path file.content).2.1 &&
        (dispatchParse cfg oracle (DetermineLogType path) path file.content).2.2.2.1.all
          (fun p => p.2)) = true)
    (hmark : oracle.markOK = true)
    (hdel : ShouldDeleteAfterCollect cfg (logTypeStr (DetermineLogType path)) = false) :
    (processFile cfg oracle now fs st path).1.markCalled = true ∧
    (processFile cfg oracle now fs st path).1.inserts =
      (dispatchParse cfg oracle (DetermineLogType path) path file.content).2.2.2.1 ∧
    (processFile cfg oracle now fs st path).1.extracted =
      (dispatchParse cfg oracle (DetermineLogType path) path file.content).2.2.1 ∧
    (processFile cfg oracle now fs st path).2.1 = st ++
      [⟨path, file.size, file.mtime,
        (dispatchParse cfg oracle (DetermineLogType path) path file.content).2.2.2.2⟩] ∧
    (processFile cfg oracle now fs st path).2.2 = fs := by
  unfold processFile
  rw [hfs]
  dsimp only
  rw [if_neg (by simp [hchk]), if_neg (by simp [hproc]), if_neg (by simp [hen]),
    if_pos hok, if_pos hmark, hmark, hdel]
  refine ⟨rfl, rfl, rfl, rfl, ?_⟩
  rw [if_neg (by simp)]

/-- C4: on an unchanged readable file with an all-successful sink and
deletion off, a first `processFile` performs the full emission and
marks state; the immediately following second call is an idempotent
skip — no insert call, no mark, storage unchanged.  The
already-processed hypothesis is fingerprint-based: any stored row for
the path whose size or mtime differs does not block reprocessing, so a
grown or touched file is processed (and marked) again. -/
theorem processFile_idempotent (cfg : Config) (oracle : Oracle) (now : Int) (fs : FS)
    (st : Storage) (path : String) (file : File) (c : String)
    (hfs : fs path = some file)
    (hc : file.content = some c)
    (hchk : oracle.checkErr = false)
    (hins : ∀ n, oracle.insertOK n = true)
    (hmark : oracle.markOK = true)
    (hen : (GetLogTypeConfig cfg (logTypeStr (DetermineLogType path))).Enabled = true)
    (hbs : 1 ≤ cfg.BatchSize)
    (hdel : ShouldDeleteAfterCollect cfg (logTypeStr (DetermineLogType path)) = false)
    (hfresh : ∀ e ∈ st, e.path = path → e.size ≠ file.size ∨ e.mtime ≠ file.mtime) :
    (processFile cfg oracle now fs st path).1.markCalled = true ∧
    handedOf (processFile cfg oracle now fs st path).1.inserts =
      (processFile cfg oracle now fs st path).1.extracted ∧
    (processFile cfg oracle now fs st path).2.2 = fs ∧
    (processFile cfg oracle now fs (processFile cfg oracle now fs st path).2.1 path).1.inserts
      = [] ∧
    (processFile cfg oracle now fs (processFile cfg oracle now fs st path).2.1 path).1.markCalled
      = false ∧
    (processFile cfg oracle now fs (processFile cfg oracle now fs st path).2.1 path).2.1 =
      (processFile cfg oracle now fs st path).2.1 := by
  have hproc : IsFileProcessed st path file.size file.mtime = false := by
    unfold IsFileProcessed
    rw [List.any_eq_false]
    intro e he
    intro hcond
    simp only [Bool.and_eq_true, decide_eq_true_eq] at hcond
    rcases hfresh e he hcond.1.1 with h | h
    · exact h hcond.1.2
    · exact h hcond.2
  have hpok : (dispatchParse cfg oracle (DetermineLogType path) path file.content).2.1 = true := by
    rw [hc]
    cases hlt : DetermineLogType path <;> simp [dispatchParse]
  have hall : (dispatchParse cfg oracle (DetermineLogType path) path
      file.content).2.2.2.1.all (fun p => p.2) = true := by
    rw [hc]
    cases hlt : DetermineLogType path <;>
      simp [dispatchParse, runInserts_all_of_oracle oracle hins, hins 0]
  have hok := Bool.and_eq_true _ _ |>.mpr ⟨hpok, hall⟩
  obtain ⟨h1, h2, h3, h4, h5⟩ :=
    processFile_success_proj cfg oracle now fs st path file hfs hchk hproc hen hok hmark hdel
  have hproc2 : IsFileProcessed (processFile cfg oracle now fs st path).2.1 path
      file.size file.mtime = true := by
    rw [h4]
    unfold IsFileProcessed
    rw [List.any_append]
    simp
  have hcall2 : ∀ st' : Storage, IsFileProcessed st' path file.size file.mtime = true →
      (processFile cfg oracle now fs st' path).1.inserts = [] ∧
      (processFile cfg oracle now fs st' path).1.markCalled = false ∧
      (processFile cfg oracle now fs st' path).2.1 = st' := by
    intro st' hp2
    unfold processFile
    rw [hfs]
    dsimp only
    rw [if_neg (by simp [hchk]), if_pos hp2]
    exact ⟨rfl, rfl, rfl⟩
  obtain ⟨g1, g2, g3⟩ := hcall2 _ hproc2
  refine ⟨h1, ?_, h5, g1, g2, g3⟩
  rw [h2, h3]
  exact dispatchParse_handed cfg oracle _ path file.content hbs hall

def c4Store : Storage := [⟨"main.log", 99, 9, 0⟩]

/-- Witness for C4: a stored row for the same path with a different
fingerprint does not block processing — the call emits fully and marks
state — and the immediately repeated call on the now-matching
fingerprint inserts nothing, marks nothing and leaves storage
unchanged. -/
theorem processFile_idempotent_w :
    (processFile cfgW oracleW 0 c2FS c4Store "main.log").1.markCalled = true ∧
    handedOf (processFile cfgW oracleW 0 c2FS c4Store "main.log").1.inserts =
      (processFile cfgW oracleW 0 c2FS c4Store "main.log").1.extracted ∧
    (processFile cfgW oracleW 0 c2FS c4Store "main.log").2.2 = c2FS ∧
    (processFile cfgW oracleW 0 c2FS
        (processFile cfgW oracleW 0 c2FS c4Store "main.log").2.1 "main.log").1.inserts = [] ∧
    (processFile cfgW oracleW 0 c2FS
        (processFile cfgW oracleW 0 c2FS c4Store "main.log").2.1 "main.log").1.markCalled
      = false ∧
    (processFile cfgW oracleW 0 c2FS
        (processFile cfgW oracleW 0 c2FS c4Store "main.log").2.1 "main.log").2.1 =
      (processFile cfgW oracleW 0 c2FS c4Store "main.log").2.1 :=
  processFile_idempotent cfgW oracleW 0 c2FS c4Store "main.log"
    { size := 7, mtime := 0, content := some "" } ""
    (by rfl) (by rfl) (by rfl) (fun _ => rfl) (by rfl) (by rfl) (by decide) (by rfl)
    (by decide)
